import Mathlib

/-!
Verification of the fymo server-side rendering framework (Python) against its
natural-language specification.

Strings are shallowly embedded as `List Char` (named `Str`); Python `dict`s
(which preserve insertion order) are embedded as association lists with
first-key-wins lookup and in-place update.  The fragment of Python's `re`
module used by the code (character classes, greedy `*` / `+` / `?`,
capturing groups — no alternation, no anchors beyond whole-match use) is
embedded as a small backtracking engine that returns candidate matches in
backtracking preference order, exactly the order CPython's engine explores.
`re.escape` is embedded with the Python >= 3.7 semantics (only regex
metacharacters are escaped), which is the behaviour on every interpreter
this code base supports (it uses f-strings throughout and depends on
STPyV8).  Python's `str.lower` is embedded per-character (ASCII), which is
exact on the ASCII pattern strings the code compares.
-/

/-- Python strings, embedded as their character lists. -/
abbrev Str := List Char

/-- Coerce a Lean string literal to the embedded representation. -/
def str (s : String) : Str := s.data

/-- Python `a in s` (substring containment) on strings. -/
def pyContains : Str → Str → Bool
  | s, p => p.isPrefixOf s || match s with
    | [] => false
    | _ :: t => pyContains t p

/-- Python `str.lower` (per-character, ASCII). -/
def pyLower (s : Str) : Str := s.map Char.toLower

/-- Python `s.endswith(c)` for a single-character suffix. -/
def pyEndsWithChar (s : Str) (c : Char) : Bool :=
  match s.getLast? with
  | some d => d = c
  | none => false

/-- Python `s[:-1]`: drop the final character. -/
def pyDropLast (s : Str) : Str := s.dropLast

/-- Python `s.replace(old, new)`: replace every non-overlapping occurrence,
scanning left to right.  (All call sites in this code base pass a non-empty
`old`; the empty-pattern case returns the string unchanged.) -/
def pyReplaceAux (p m : Str) : Nat → Str → Str
  | 0, s => s
  | fuel + 1, s =>
    if p = [] then s
    else if p.isPrefixOf s then m ++ pyReplaceAux p m fuel (s.drop p.length)
    else
      match s with
      | [] => []
      | c :: t => c :: pyReplaceAux p m fuel t

/-- Python `s.replace(old, new)` proper: the worker strips at least one
character per step, so `length + 1` fuel always suffices. -/
def pyReplace (s p m : Str) : Str := pyReplaceAux p m (s.length + 1) s

/-- Python `s.strip(c)` for a single strip character: remove leading and
trailing occurrences of `c`. -/
def pyStripChar (s : Str) (c : Char) : Str :=
  ((s.dropWhile (· = c)).reverse.dropWhile (· = c)).reverse

/-- Python `s.split(c)` for a single-character separator.  `"".split(c)`
yields `[""]`, matching Python. -/
def pySplit (c : Char) : Str → List Str
  | [] => [[]]
  | d :: t =>
    let rest := pySplit c t
    if d = c then [] :: rest
    else
      match rest with
      | [] => [[d]]
      | r :: rs => (d :: r) :: rs

/-- Association-list lookup, first key wins — embeds Python `dict.__getitem__`
/ `dict.get` (a `dict` holds each key at most once). -/
def dlookup {α : Type} : List (Str × α) → Str → Option α
  | [], _ => none
  | (k, v) :: t, q => if k = q then some v else dlookup t q

/-- Python `key in dict`. -/
def dhasKey {α : Type} (l : List (Str × α)) (q : Str) : Bool :=
  (dlookup l q).isSome

/-- Python `dict.__setitem__`: overwrite in place when the key exists
(keeping its position), append otherwise. -/
def dinsert {α : Type} : List (Str × α) → Str → α → List (Str × α)
  | [], k, v => [(k, v)]
  | (k', v') :: t, k, v =>
    if k' = k then (k', v) :: t else (k', v') :: dinsert t k v

/-- Python `del dict[key]`. -/
def derase {α : Type} : List (Str × α) → Str → List (Str × α)
  | [], _ => []
  | (k', v') :: t, k =>
    if k' = k then derase t k else (k', v') :: derase t k

theorem dlookup_derase {α : Type} (l : List (Str × α)) (k q : Str) :
    dlookup (derase l k) q = if q = k then none else dlookup l q := by
  induction l with
  | nil => by_cases hq : q = k <;> simp [derase, dlookup, hq]
  | cons kv t ih =>
    obtain ⟨k', v'⟩ := kv
    by_cases hq : q = k
    · subst hq
      by_cases hk : k' = q <;> simp [derase, dlookup, hk, ih]
    · by_cases hk : k' = k
      · subst hk
        have hkq : ¬ k' = q := fun h => hq h.symm
        simp [derase, dlookup, hkq, ih, hq]
      · by_cases hkq : k' = q <;> simp [derase, dlookup, hk, hkq, ih, hq]

theorem dlookup_dinsert {α : Type} (l : List (Str × α)) (k q : Str) (v : α) :
    dlookup (dinsert l k v) q = if k = q then some v else dlookup l q := by
  induction l with
  | nil => simp [dinsert, dlookup]
  | cons kv t ih =>
    obtain ⟨k', v'⟩ := kv
    by_cases hk : k' = k
    · subst hk
      by_cases hq : k' = q <;> simp [dinsert, dlookup, hq]
    · by_cases hq : k' = q
      · subst hq
        have : ¬ k = k' := fun h => hk h.symm
        simp [dinsert, dlookup, hk, this]
      · simp [dinsert, dlookup, hk, hq, ih]

/-! ## A small backtracking regex engine

Covers exactly the fragment of `re` the code base uses: single-character
(possibly negated) classes, concatenation, greedy `*` / `+` / `?`, and
capturing groups.  `runRE` returns every way the expression can match a
prefix of the input, as `(remaining input, captures)` pairs in backtracking
preference order — greedy quantifiers yield longer consumptions first, just
as CPython's engine explores them.  Starred subexpressions in all patterns
below consume at least one character, so iterations that consume nothing are
not explored (CPython likewise refuses empty loop iterations). -/

/-- Regex abstract syntax for the fragment used by fymo's patterns. -/
inductive RE where
  | eps : RE
  | cls (p : Char → Bool) : RE
  | cat (a b : RE) : RE
  | star (a : RE) : RE
  | opt (a : RE) : RE
  | group (name : Str) (a : RE) : RE

/-- Captures: named group → matched text. -/
abbrev Caps := List (Str × Str)

/-- All matches of `re` against a prefix of `s`, in backtracking preference
order.  `fuel` bounds star unrolling; one unit per star iteration suffices,
and every iteration consumes at least one character. -/
def runRE : Nat → RE → Str → List (Str × Caps)
  | 0, _, _ => []
  | fuel + 1, re, s =>
    match re with
    | .eps => [(s, [])]
    | .cls p =>
      match s with
      | [] => []
      | c :: t => if p c then [(t, [])] else []
    | .cat a b =>
      (runRE fuel a s).flatMap fun sc =>
        (runRE fuel b sc.1).map fun sc' => (sc'.1, sc.2 ++ sc'.2)
    | .opt a => runRE fuel a s ++ [(s, [])]
    | .group n a =>
      (runRE fuel a s).map fun sc =>
        (sc.1, sc.2 ++ [(n, s.take (s.length - sc.1.length))])
    | .star a =>
      ((runRE fuel a s).filter fun sc => sc.1.length < s.length).flatMap
        (fun sc => (runRE fuel (.star a) sc.1).map fun sc' =>
          (sc'.1, sc.2 ++ sc'.2))
      ++ [(s, [])]

/-- Greedy `+`. -/
def REplus (a : RE) : RE := .cat a (.star a)

/-- One literal character. -/
def RElit (c : Char) : RE := .cls (· = c)

/-- A literal string. -/
def REstr (cs : Str) : RE := cs.foldr (fun c acc => .cat (RElit c) acc) .eps

/-- Size of a pattern, used to pick a sufficient engine fuel. -/
def reSize : RE → Nat
  | .eps => 1
  | .cls _ => 1
  | .cat a b => reSize a + reSize b + 1
  | .star a => reSize a + 1
  | .opt a => reSize a + 1
  | .group _ a => reSize a + 1

/-- A fuel that lets the engine explore every path: the interpreter descends
at most `reSize` frames between consuming characters, and consumes at most
`length` characters. -/
def reFuel (re : RE) (s : Str) : Nat := (reSize re + 2) * (s.length + 2)

/-- The preferred (first, i.e. leftmost-greedy) match of `re` at the very
start of `s`: `(matched text, captures)`. -/
def matchHere (re : RE) (s : Str) : Option (Str × Caps) :=
  match (runRE (reFuel re s) re s).head? with
  | some (rest, caps) => some (s.take (s.length - rest.length), caps)
  | none => none

/-- Python `re.search`: first position (leftmost) where the pattern matches,
returning `(full matched text, captures)`. -/
def reSearch (re : RE) : Str → Option (Str × Caps)
  | [] => matchHere re []
  | s@(_ :: t) =>
    match matchHere re s with
    | some r => some r
    | none => reSearch re t

/-- Python `re.findall` worker: scan left to right, resuming after the end
of each (non-empty) match; on an empty match or no match, advance one
character.  The fuel is spent one unit per character advanced. -/
def findallAux (re : RE) : Nat → Str → List (Str × Caps)
  | 0, _ => []
  | fuel + 1, s =>
    match matchHere re s with
    | some (m, caps) =>
      if m.isEmpty then
        (m, caps) :: match s with
          | [] => []
          | _ :: t => findallAux re fuel t
      else (m, caps) :: findallAux re fuel (s.drop m.length)
    | none =>
      match s with
      | [] => []
      | _ :: t => findallAux re fuel t

/-- Python `re.findall`, keeping for each match its full text and captures. -/
def findall (re : RE) (s : Str) : List (Str × Caps) :=
  findallAux re (s.length + 1) s

/-- Python `re.sub` worker with a replacement built from the captures. -/
def subAux (re : RE) (repl : Caps → Str) : Nat → Str → Str
  | 0, s => s
  | fuel + 1, s =>
    match matchHere re s with
    | some (m, caps) =>
      if m.isEmpty then
        repl caps ++ match s with
          | [] => []
          | c :: t => c :: subAux re repl fuel t
      else repl caps ++ subAux re repl fuel (s.drop m.length)
    | none =>
      match s with
      | [] => []
      | c :: t => c :: subAux re repl fuel t

/-- Python `re.sub` with a capture-dependent replacement. -/
def reSub (re : RE) (repl : Caps → Str) (s : Str) : Str :=
  subAux re repl (s.length + 1) s

/-! ## The concrete patterns used by `fymo.core.bundler` and
`fymo.core.component_resolver` -/

/-- Python `\s` (ASCII part, which is all the sources use). -/
def isWs (c : Char) : Bool :=
  c = ' ' || c = '\t' || c = '\n' || c = '\r' || c = '\x0b' || c = '\x0c'

/-- Python `\w` (ASCII part). -/
def isWordChar (c : Char) : Bool := c.isAlpha || c.isDigit || c = '_'

/-- `\s*`. -/
def sStar : RE := .star (.cls isWs)

/-- `\s+`. -/
def sPlus : RE := REplus (.cls isWs)

/-- `(\w+)` without the group. -/
def wPlus : RE := REplus (.cls isWordChar)

/-- `['\"]`. -/
def quoteCls : RE := .cls fun c => c = '\'' || c = '"'

/-- `[^'\"]`. -/
def notQuote (c : Char) : Bool := !(c = '\'' || c = '"')

/-- `[^'\"./]`. -/
def notQuoteDotSlash (c : Char) : Bool :=
  !(c = '\'' || c = '"' || c = '.' || c = '/')

/-- Concatenation of a pattern sequence. -/
def REcat (l : List RE) : RE := l.foldr .cat .eps

/-- `([^'\"./][^'\"]*)` as capture group 2: an external-module name. -/
def npmNameGroup : RE :=
  .group (str "2") (.cat (.cls notQuoteDotSlash) (.star (.cls notQuote)))

/-- bundler.py pattern 1:
`import\s*\{([^}]+)\}\s*from\s*['\"]([^'\"./][^'\"]*)['\"];?`. -/
def npmPat1 : RE := REcat
  [REstr (str "import"), sStar, RElit '{',
   .group (str "1") (REplus (.cls fun c => !(c = '}'))), RElit '}',
   sStar, REstr (str "from"), sStar, quoteCls, npmNameGroup, quoteCls,
   .opt (RElit ';')]

/-- bundler.py pattern 2:
`import\s+(\w+)\s+from\s+['\"]([^'\"./][^'\"]*)['\"];?`. -/
def npmPat2 : RE := REcat
  [REstr (str "import"), sPlus, .group (str "1") wPlus, sPlus,
   REstr (str "from"), sPlus, quoteCls, npmNameGroup, quoteCls,
   .opt (RElit ';')]

/-- bundler.py pattern 3:
`import\s*\*\s*as\s+(\w+)\s+from\s+['\"]([^'\"./][^'\"]*)['\"];?`. -/
def npmPat3 : RE := REcat
  [REstr (str "import"), sStar, RElit '*', sStar, REstr (str "as"), sPlus,
   .group (str "1") wPlus, sPlus, REstr (str "from"), sPlus, quoteCls,
   npmNameGroup, quoteCls, .opt (RElit ';')]

/-- bundler.py pattern 4 (side-effect import):
`import\s+['\"]([^'\"./][^'\"]*)['\"];?` — its module name is group 1. -/
def npmPat4 : RE := REcat
  [REstr (str "import"), sPlus, quoteCls,
   .group (str "1") (.cat (.cls notQuoteDotSlash) (.star (.cls notQuote))),
   quoteCls, .opt (RElit ';')]

/-- component_resolver.py:
`import\s+(\w+)\s+from\s+['\"]([^'\"]+\.svelte)['\"];?`. -/
def sveltePat : RE := REcat
  [REstr (str "import"), sPlus, .group (str "1") wPlus, sPlus,
   REstr (str "from"), sPlus, quoteCls,
   .group (str "2") (.cat (REplus (.cls notQuote)) (REstr (str ".svelte"))),
   quoteCls, .opt (RElit ';')]

/-- Named-group access on a match's captures. -/
def capGet (caps : Caps) (n : Str) : Str := (dlookup caps n).getD []

/-! ## `fymo.core.bundler.NPMBundler` -/

/-- Outcome of one esbuild subprocess invocation. -/
inductive ToolResult where
  | ok (bundled : Str) : ToolResult
  | fail (stderr : Str) : ToolResult

/-- The external esbuild toolchain, abstracted as a function of the package
name and the target environment. -/
abbrev Toolchain := Str → Str → ToolResult

/-- The mutable state of a `ComponentResolver` (which owns an `NPMBundler`):
the component source cache, the dependency graph, the bundler's
`bundle_cache`, plus an instrumentation counter of toolchain invocations. -/
structure ResolverState where
  componentCache : List (Str × Str)
  dependencyGraph : List (Str × List Str)
  bundleCache : List (Str × Str)
  toolRuns : Nat
deriving DecidableEq

/-- `NPMBundler._bundle_single_package`: consult `bundle_cache` under the
key `f"{package_name}_{target}"`; on a miss invoke esbuild, caching the
bundle on success and raising `CompilationError` (here: `Except.error`) on a
non-zero exit. -/
def bundleSinglePackage (tool : Toolchain) (st : ResolverState)
    (packageName target : Str) : Except Str Str × ResolverState :=
  let cacheKey := packageName ++ [ '_' ] ++ target
  match dlookup st.bundleCache cacheKey with
  | some cached => (.ok cached, st)
  | none =>
    match tool packageName target with
    | .ok bundledCode =>
      (.ok bundledCode,
       { st with bundleCache := dinsert st.bundleCache cacheKey bundledCode,
                 toolRuns := st.toolRuns + 1 })
    | .fail stderr =>
      (.error (str "esbuild failed: " ++ stderr),
       { st with toolRuns := st.toolRuns + 1 })

/-- The four npm-import patterns paired with the group holding the module
name (patterns 1–3 capture it as group 2, the side-effect pattern as
group 1). -/
def npmImportPatterns : List (RE × Str) :=
  [(npmPat1, str "2"), (npmPat2, str "2"), (npmPat3, str "2"), (npmPat4, str "1")]

/-- `NPMBundler.extract_npm_imports`: for each pattern, `re.findall`, and
for every match append `(re.search(pattern, source).group(0), module name)`
— note the full statement text is re-searched in the *whole* source for
every match, so it is always the first occurrence of that pattern. -/
def extractNpmImports (sourceCode : Str) : List (Str × Str) :=
  npmImportPatterns.flatMap fun pg =>
    (findall pg.1 sourceCode).map fun m =>
      (((reSearch pg.1 sourceCode).map (·.1)).getD [], capGet m.2 pg.2)

/-- `NPMBundler._replace_package_imports`, pattern 1 for a fixed package:
`import\s*\{([^}]+)\}\s*from\s*['\"](pkg)['\"];?`. -/
def replPat1 (pkg : Str) : RE := REcat
  [REstr (str "import"), sStar, RElit '{',
   .group (str "1") (REplus (.cls fun c => !(c = '}'))), RElit '}',
   sStar, REstr (str "from"), sStar, quoteCls, .group (str "2") (REstr pkg),
   quoteCls, .opt (RElit ';')]

/-- Replacement for pattern 1: `const {\1} = globalThis._fymo_packages['pkg'];`. -/
def replOut1 (pkg : Str) (caps : Caps) : Str :=
  str "const \x7b" ++ capGet caps (str "1") ++
  str "\x7d = globalThis._fymo_packages['" ++ pkg ++ str "'];"

/-- Replace-variant pattern 2 (note `from\s*` here, unlike the extractor's
`from\s+`): `import\s+(\w+)\s+from\s*['\"](pkg)['\"];?`. -/
def replPat2 (pkg : Str) : RE := REcat
  [REstr (str "import"), sPlus, .group (str "1") wPlus, sPlus,
   REstr (str "from"), sStar, quoteCls, .group (str "2") (REstr pkg),
   quoteCls, .opt (RElit ';')]

/-- Replacement for pattern 2. -/
def replOut2 (pkg : Str) (caps : Caps) : Str :=
  str "const " ++ capGet caps (str "1") ++
  str " = globalThis._fymo_packages['" ++ pkg ++
  str "'].default || globalThis._fymo_packages['" ++ pkg ++ str "'];"

/-- Replace-variant pattern 3: `import\s*\*\s*as\s+(\w+)\s+from\s*['\"](pkg)['\"];?`. -/
def replPat3 (pkg : Str) : RE := REcat
  [REstr (str "import"), sStar, RElit '*', sStar, REstr (str "as"), sPlus,
   .group (str "1") wPlus, sPlus, REstr (str "from"), sStar, quoteCls,
   .group (str "2") (REstr pkg), quoteCls, .opt (RElit ';')]

/-- Replacement for pattern 3. -/
def replOut3 (pkg : Str) (caps : Caps) : Str :=
  str "const " ++ capGet caps (str "1") ++
  str " = globalThis._fymo_packages['" ++ pkg ++ str "'];"

/-- Replace-variant pattern 4 (side-effect import, removed):
`import\s+['\"](pkg)['\"];?`. -/
def replPat4 (pkg : Str) : RE := REcat
  [REstr (str "import"), sPlus, quoteCls, .group (str "1") (REstr pkg),
   quoteCls, .opt (RElit ';')]

/-- `NPMBundler._replace_package_imports`: apply the four substitutions in
order. -/
def replacePackageImports (sourceCode packageName : Str) : Str :=
  let s1 := reSub (replPat1 packageName) (replOut1 packageName) sourceCode
  let s2 := reSub (replPat2 packageName) (replOut2 packageName) s1
  let s3 := reSub (replPat3 packageName) (replOut3 packageName) s2
  reSub (replPat4 packageName) (fun _ => []) s3

/-- First-occurrence deduplication.  (CPython iterates `set(...)` in an
unspecified order; all facts proved below about `bundleNpmPackages` are
insensitive to the order chosen, and we fix first-insertion order.) -/
def dedupFirst (l : List Str) : List Str :=
  l.foldl (fun acc x => if acc.contains x then acc else acc ++ [x]) []

/-- `NPMBundler.bundle_npm_packages`: bundle each unique imported module;
on success rewrite that module's imports to registry reads, on toolchain
failure strip every extracted `(statement, module)` pair of that module from
the source (a recorded warning, not an error) and continue. -/
def bundleNpmPackages (tool : Toolchain) (target : Str) (st : ResolverState)
    (sourceCode : Str) : Str × List (Str × Str) × ResolverState :=
  let imports := extractNpmImports sourceCode
  if imports.isEmpty then (sourceCode, [], st)
  else
    let uniquePackages := dedupFirst (imports.map (·.2))
    uniquePackages.foldl
      (fun acc pkg =>
        match bundleSinglePackage tool acc.2.2 pkg target with
        | (.ok bundledCode, st') =>
          (replacePackageImports acc.1 pkg,
           dinsert acc.2.1 pkg bundledCode, st')
        | (.error _, st') =>
          (imports.foldl
             (fun m si => if si.2 = pkg then pyReplace m si.1 [] else m)
             acc.1,
           acc.2.1, st'))
      (sourceCode, ([], st))

/-! ## `fymo.core.component_resolver.ComponentResolver`

`resolve_imports` is recursive with no cycle guard; we embed it with an
explicit recursion-depth fuel: each nested `resolve_imports` call (one
Python stack frame deeper) runs at `fuel - 1`, so a run of the Python code
terminates exactly when some finite fuel avoids `fuelOut`, and it recurses
past every depth bound exactly when every fuel yields `fuelOut`. -/

/-- The environment `resolve_imports` runs in: the file system (absolute
path → content; a path exists iff it is readable), the esbuild toolchain,
`self.templates_root`, and the compile target. -/
structure ResolveEnv where
  fs : Str → Option Str
  tool : Toolchain
  troot : Str
  target : Str

/-- `Path.parent`, unnormalized, on `/`-separated path strings. -/
def pathParent (p : Str) : Str :=
  let parts := pySplit '/' p
  match parts with
  | [] => str "."
  | [_] => str "."
  | _ => (parts.dropLast.intersperse [ '/' ]).flatten

/-- `Path / rel`: append one relative component. -/
def pathJoin (p rel : Str) : Str := p ++ [ '/' ] ++ rel

/-- `ComponentResolver._resolve_import_path`. -/
def resolveImportPath (troot importPath currentFilePath : Str) : Str :=
  if (str "./").isPrefixOf importPath then
    pathJoin (pathParent currentFilePath) (importPath.drop 2)
  else if (str "../").isPrefixOf importPath then
    pathJoin (pathParent currentFilePath) importPath
  else if (str "/").isPrefixOf importPath then
    pathJoin troot (importPath.drop 1)
  else
    pathJoin (pathParent currentFilePath) importPath

/-- `ComponentResolver._load_component`: cache hit returns the cached text;
otherwise read the file and cache it.  `none` is the `IOError` branch
(raised as `TemplateError`). -/
def loadComponent (fs : Str → Option Str) (st : ResolverState)
    (componentPath : Str) : Option (Str × ResolverState) :=
  match dlookup st.componentCache componentPath with
  | some src => some (src, st)
  | none =>
    match fs componentPath with
    | some src =>
      some (src, { st with
        componentCache := dinsert st.componentCache componentPath src })
    | none => none

/-- `ComponentResolver._track_dependency`: `dependency_graph[parent].add(dep)`
(creating the set if absent); the set is embedded as a duplicate-free list. -/
def trackDependency (st : ResolverState) (parentFile dependencyFile : Str) :
    ResolverState :=
  match dlookup st.dependencyGraph parentFile with
  | none =>
    { st with dependencyGraph :=
        dinsert st.dependencyGraph parentFile [dependencyFile] }
  | some deps =>
    let deps' := if deps.contains dependencyFile then deps
                 else deps ++ [dependencyFile]
    { st with dependencyGraph := dinsert st.dependencyGraph parentFile deps' }

/-- Result of `resolve_imports`: normal return, a raised `TemplateError`,
or fuel (recursion-depth bound) exhaustion. -/
inductive RRes where
  | ok (processedSource : Str) (importedComponents : List (Str × Str))
      (bundledPackages : List (Str × Str)) (st : ResolverState) : RRes
  | err (msg : Str) : RRes
  | fuelOut : RRes
deriving DecidableEq

/-- Result of the import-processing loop inside `resolve_imports`. -/
inductive PRes where
  | ok (importedComponents : List (Str × Str))
      (bundledPackages : List (Str × Str)) (st : ResolverState) : PRes
  | err (msg : Str) : PRes
  | fuelOut : PRes
deriving DecidableEq

/-- Python `dict.update`. -/
def dupdate {α : Type} (d u : List (Str × α)) : List (Str × α) :=
  u.foldl (fun acc kv => dinsert acc kv.1 kv.2) d

/-- The `.svelte`-import scan of `resolve_imports`:
`re.findall(svelte_import_pattern, source)` as `(name, path)` pairs. -/
def svelteImportsOf (source : Str) : List (Str × Str) :=
  (findall sveltePat source).map fun m =>
    (capGet m.2 (str "1"), capGet m.2 (str "2"))

/-- `ComponentResolver.resolve_imports`: bundle npm packages first, scan
for `.svelte` imports, process each import recursively (each nested call one
recursion-depth unit — one Python stack frame — deeper), then strip the
statements of those imports.  The `for component_name, import_path` loop
threads the two accumulator dicts and the state and aborts on a raised
error, which `PRes` propagates. -/
def importStep (env : ResolveEnv)
    (recur : ResolverState → Str → Str → RRes) (currentFilePath : Str)
    (acc : PRes) (imp : Str × Str) : PRes :=
  match acc with
  | .err e => .err e
  | .fuelOut => .fuelOut
  | .ok accImported accPackages stAcc =>
    let resolvedPath := resolveImportPath env.troot imp.2 currentFilePath
    match env.fs resolvedPath with
    | none => .err (str "Component not found: " ++ imp.2)
    | some _ =>
      match loadComponent env.fs stAcc resolvedPath with
      | none => .err (str "Could not read component " ++ resolvedPath)
      | some (componentSource, st1) =>
        match recur st1 componentSource resolvedPath with
        | .fuelOut => .fuelOut
        | .err e => .err e
        | .ok nestedSource nestedImports nestedPackages st2 =>
          .ok (dupdate (dinsert accImported imp.1 nestedSource)
                nestedImports)
            (dupdate accPackages nestedPackages)
            (trackDependency st2 currentFilePath resolvedPath)

/-- The recursive driver of `resolve_imports` (see `importStep` for the
loop body). -/
def resolveImports (env : ResolveEnv) : Nat → ResolverState → Str → Str → RRes
  | 0, _, _, _ => .fuelOut
  | fuel + 1, st, svelteSource, currentFilePath =>
    let bundled := bundleNpmPackages env.tool env.target st svelteSource
    let looped := (svelteImportsOf bundled.1).foldl
      (importStep env
        (fun st1 componentSource resolvedPath =>
          resolveImports env fuel st1 componentSource resolvedPath)
        currentFilePath)
      (PRes.ok [] bundled.2.1 bundled.2.2)
    match looped with
    | .fuelOut => .fuelOut
    | .err e => .err e
    | .ok importedComponents bundledPackages st2 =>
      .ok (reSub sveltePat (fun _ => []) bundled.1) importedComponents
        bundledPackages st2

/-- `ComponentResolver.invalidate_cache_for_file`: drop the file's own cache
entry, then drop the entry of every parent whose recorded dependencies
contain the file. -/
def invalidateCacheForFile (st : ResolverState) (filePath : Str) :
    ResolverState :=
  let cache1 :=
    if dhasKey st.componentCache filePath then
      derase st.componentCache filePath
    else st.componentCache
  let cache2 := st.dependencyGraph.foldl
    (fun c pd =>
      if pd.2.contains filePath && dhasKey c pd.1 then derase c pd.1 else c)
    cache1
  { st with componentCache := cache2 }

/-! ## `fymo.core.router.Router` -/

/-- The characters `re.escape` escapes on Python >= 3.7 (CPython's
`_special_chars_map`: `()[]{}?*+-|^$\.&~#` and ASCII whitespace).  Note that
`:` is *not* among them. -/
def reSpecialChars : List Char :=
  ['(', ')', '[', ']', '{', '}', '?', '*', '+', '-', '|', '^', '$', '\\',
   '.', '&', '~', '#', ' ', '\t', '\n', '\r', '\x0b', '\x0c']

/-- `re.escape` (Python >= 3.7 semantics). -/
def reEscape (s : Str) : Str :=
  s.flatMap fun c => if reSpecialChars.contains c then ['\\', c] else [c]

/-- `re.sub(r'\\:(\w+)', r'(?P<\1>[^/]+)', s)` — looks for a literal
backslash followed by `:` and one-or-more word characters, scanning left to
right. -/
def subColonParamsAux : Nat → Str → Str
  | 0, s => s
  | _ + 1, [] => []
  | fuel + 1, '\\' :: ':' :: rest2 =>
    if (rest2.takeWhile isWordChar).isEmpty then
      '\\' :: subColonParamsAux fuel (':' :: rest2)
    else
      str "(?P<" ++ rest2.takeWhile isWordChar ++ str ">[^/]+)" ++
        subColonParamsAux fuel (rest2.drop (rest2.takeWhile isWordChar).length)
  | fuel + 1, c :: rest => c :: subColonParamsAux fuel rest

/-- The substitution proper (each worker step strips at least one character,
so `length + 1` fuel always suffices). -/
def subColonParams (s : Str) : Str := subColonParamsAux (s.length + 1) s

/-- Compile the router's constructed pattern text (the output of
`re.escape` then the `\:name` substitution) back into regex syntax: an
escaped character is a literal, `(?P<name>[^/]+)` is a named group matching
one non-slash run, and any other character is a literal (after `re.escape`,
unescaped metacharacters other than the inserted group construct cannot
occur).  The fuel is spent one unit per parsing step; every step consumes at
least one character, so `length + 1` always suffices. -/
def parseEscapedPatternAux : Nat → Str → Option RE
  | 0, _ => none
  | _ + 1, [] => some .eps
  | fuel + 1, '\\' :: c :: rest =>
    (parseEscapedPatternAux fuel rest).map (RE.cat (RElit c))
  | _ + 1, '\\' :: [] => none
  | fuel + 1, '(' :: rest =>
    if (str "?P<").isPrefixOf rest then
      match (rest.drop 3).drop ((rest.drop 3).takeWhile
          (fun c => !(c = '>'))).length with
      | '>' :: '[' :: '^' :: '/' :: ']' :: '+' :: ')' :: rest2 =>
        (parseEscapedPatternAux fuel rest2).map
          (RE.cat (.group ((rest.drop 3).takeWhile fun c => !(c = '>'))
            (REplus (.cls fun c => !(c = '/')))))
      | _ => none
    else none
  | fuel + 1, c :: rest => (parseEscapedPatternAux fuel rest).map (RE.cat (RElit c))

/-- Compile a full constructed pattern body. -/
def parseEscapedPattern (s : Str) : Option RE :=
  parseEscapedPatternAux (s.length + 1) s

/-- `re.match(f'^{body}$', path)` for the router's constructed pattern:
the first full-consumption match in backtracking order, with its named
captures (`match.groupdict()`). -/
def reFullMatch (re : RE) (s : Str) : Option Caps :=
  match ((runRE (s.length + 1) re s).filter fun rc => rc.1.isEmpty).head? with
  | some (_, caps) => some caps
  | none => none

/-- One value in a route-info dict: the string fields, or the attached
params dict. -/
inductive RVal where
  | s (v : Str) : RVal
  | params (gd : List (Str × Str)) : RVal
deriving DecidableEq

/-- A route-info dict (`{'controller': ..., 'action': ..., 'template': ...}`,
possibly with a `'params'` key attached by `match`). -/
abbrev RouteInfo := List (Str × RVal)

/-- The `Router`'s mutable state: the route table and the resource list. -/
structure RouterState where
  routes : List (Str × RouteInfo)
  resources : List Str

/-- A plain three-field route entry. -/
def mkRouteEntry (controller action template : Str) : RouteInfo :=
  [(str "controller", RVal.s controller), (str "action", RVal.s action),
   (str "template", RVal.s template)]

/-- `Router._expand_resources`: insert the four synthesized routes for every
registered resource name, in source order (index, show, edit, new). -/
def expandResourceRoutes (routes : List (Str × RouteInfo)) (resource : Str) :
    List (Str × RouteInfo) :=
  let r1 := dinsert routes ([ '/' ] ++ resource)
    (mkRouteEntry resource (str "index") (resource ++ str "/index.svelte"))
  let r2 := dinsert r1 ([ '/' ] ++ resource ++ str "/:id")
    (mkRouteEntry resource (str "show") (resource ++ str "/show.svelte"))
  let r3 := dinsert r2 ([ '/' ] ++ resource ++ str "/:id/edit")
    (mkRouteEntry resource (str "edit") (resource ++ str "/edit.svelte"))
  dinsert r3 ([ '/' ] ++ resource ++ str "/new")
    (mkRouteEntry resource (str "new") (resource ++ str "/new.svelte"))

/-- `Router._expand_resources` over the whole resource list. -/
def expandResources (st : RouterState) : RouterState :=
  { st with routes := st.resources.foldl expandResourceRoutes st.routes }

/-- The `for route_pattern, route_info in self.routes.items()` loop of
`Router.match`: for each pattern containing `:`, build
`'^' + re.sub(r'\\:(\w+)', ..., re.escape(pattern)) + '$'` and try it
against the path; first success wins. -/
def findDynamicMatch : List (Str × RouteInfo) → Str → Option (RouteInfo × Caps)
  | [], _ => none
  | (routePattern, routeInfo) :: rest, path =>
    if routePattern.contains ':' then
      match (parseEscapedPattern
          (subColonParams (reEscape routePattern))).bind
          (fun re => reFullMatch re path) with
      | some gd => some (routeInfo, gd)
      | none => findDynamicMatch rest path
    else findDynamicMatch rest path

/-- `Router._try_convention_based_routing`. -/
def conventionBasedRouting (path : Str) : Option RouteInfo :=
  if path = str "/" then
    some (mkRouteEntry (str "home") (str "index") (str "home/index.svelte"))
  else
    match pySplit '/' (pyStripChar path '/') with
    | [controller] =>
      some (mkRouteEntry controller (str "index")
        (controller ++ str "/index.svelte"))
    | [controller, action] =>
      some (mkRouteEntry controller action
        (controller ++ [ '/' ] ++ action ++ str ".svelte"))
    | _ => none

/-- `Router.match`.  The Python method mutates nothing; the embedding
threads the router state through to make that frame property a statement:
every return site pairs its result with the state. -/
def routerMatch (st : RouterState) (path : Str) : Option RouteInfo × RouterState :=
  let npath :=
    if path = str "/" then path
    else if pyEndsWithChar path '/' then pyDropLast path
    else path
  match dlookup st.routes npath with
  | some routeInfo => (some routeInfo, st)
  | none =>
    match findDynamicMatch st.routes npath with
    | some (routeInfo, gd) =>
      (some (dinsert routeInfo (str "params") (RVal.params gd)), st)
    | none =>
      match pySplit '/' (pyStripChar npath '/') with
      | p0 :: rest =>
        if st.resources.contains p0 && rest.isEmpty then
          (some (mkRouteEntry p0 (str "index") (p0 ++ str "/index.svelte")), st)
        else (conventionBasedRouting npath, st)
      | [] => (conventionBasedRouting npath, st)

/-! ## `fymo.core.compiler.SvelteCompiler._run_compiler`

The subprocess outcome is abstracted as `(returncode, stdout, stderr)`;
`json.loads` is embedded as a small JSON parser (integers only, and the
basic string escapes — all the compiler protocol produces).  An
`Except.error` is a Python exception escaping `_run_compiler`. -/

/-- JSON values. -/
inductive Json where
  | null : Json
  | bool (b : Bool) : Json
  | num (n : Int) : Json
  | str (s : Str) : Json
  | arr (xs : List Json) : Json
  | obj (kvs : List (Str × Json)) : Json

/-- JSON whitespace. -/
def isJsonWs (c : Char) : Bool := c = ' ' || c = '\t' || c = '\n' || c = '\r'

/-- Skip JSON whitespace. -/
def jsonWsSkip (s : Str) : Str := s.dropWhile isJsonWs

/-- Parse a JSON string body (after the opening quote), returning the
decoded text and the remainder after the closing quote. -/
def parseStringBody : Str → Option (Str × Str)
  | [] => none
  | '"' :: rest => some ([], rest)
  | '\\' :: e :: rest =>
    let dec : Option Char :=
      if e = '"' then some '"' else if e = '\\' then some '\\'
      else if e = '/' then some '/' else if e = 'n' then some '\n'
      else if e = 't' then some '\t' else if e = 'r' then some '\r'
      else none
    match dec with
    | none => none
    | some c => (parseStringBody rest).map fun p => (c :: p.1, p.2)
  | c :: rest => (parseStringBody rest).map fun p => (c :: p.1, p.2)

/-- Parse a JSON integer (no fractions/exponents — the compiler protocol
never produces them). -/
def parseIntLit (s : Str) : Option (Int × Str) :=
  let (neg, s') : Bool × Str :=
    match s with
    | '-' :: t => (true, t)
    | _ => (false, s)
  let ds := s'.takeWhile Char.isDigit
  if ds.isEmpty then none
  else
    let n : Nat := ds.foldl (fun acc c => acc * 10 + (c.toNat - 48)) 0
    some (if neg then -(n : Int) else (n : Int), s'.drop ds.length)

mutual

/-- Parse one JSON value from the front of the input. -/
def parseValue : Nat → Str → Option (Json × Str)
  | 0, _ => none
  | fuel + 1, s =>
    match jsonWsSkip s with
    | [] => none
    | c :: t =>
      if c = 'n' then
        if (str "ull").isPrefixOf t then some (.null, t.drop 3) else none
      else if c = 't' then
        if (str "rue").isPrefixOf t then some (.bool true, t.drop 3) else none
      else if c = 'f' then
        if (str "alse").isPrefixOf t then some (.bool false, t.drop 4) else none
      else if c = '"' then
        (parseStringBody t).map fun p => (.str p.1, p.2)
      else if c = '-' || c.isDigit then
        (parseIntLit (c :: t)).map fun p => (.num p.1, p.2)
      else if c = '[' then
        match jsonWsSkip t with
        | ']' :: rest => some (.arr [], rest)
        | u => (parseElems fuel u).map fun p => (.arr p.1, p.2)
      else if c = '{' then
        match jsonWsSkip t with
        | '}' :: rest => some (.obj [], rest)
        | u => (parseMembers fuel u).map fun p => (.obj p.1, p.2)
      else none

/-- Parse comma-separated array elements up to the closing bracket. -/
def parseElems : Nat → Str → Option (List Json × Str)
  | 0, _ => none
  | fuel + 1, s =>
    match parseValue fuel s with
    | none => none
    | some (v, rest) =>
      match jsonWsSkip rest with
      | ',' :: rest2 => (parseElems fuel rest2).map fun p => (v :: p.1, p.2)
      | ']' :: rest2 => some ([v], rest2)
      | _ => none

/-- Parse comma-separated `"key": value` members up to the closing brace. -/
def parseMembers : Nat → Str → Option (List (Str × Json) × Str)
  | 0, _ => none
  | fuel + 1, s =>
    match jsonWsSkip s with
    | '"' :: t =>
      match parseStringBody t with
      | none => none
      | some (k, rest) =>
        match jsonWsSkip rest with
        | ':' :: rest2 =>
          match parseValue fuel rest2 with
          | none => none
          | some (v, rest3) =>
            match jsonWsSkip rest3 with
            | ',' :: rest4 => (parseMembers fuel rest4).map fun p => ((k, v) :: p.1, p.2)
            | '}' :: rest4 => some ([(k, v)], rest4)
            | _ => none
        | _ => none
    | _ => none

end

/-- `json.loads`: parse one value and require only whitespace after it. -/
def parseJson (s : Str) : Option Json :=
  match parseValue (s.length + 1) s with
  | some (v, rest) => if (jsonWsSkip rest).isEmpty then some v else none
  | none => none

/-- Python `dict.get(k)` on a parsed JSON object (`none` when the value is
not an object, where attribute access would raise). -/
def jsonGet : Json → Str → Option Json
  | .obj kvs, k => dlookup kvs k
  | _, _ => none

/-- Python truthiness of `compile_result.get('success')`. -/
def jsonTruthy : Option Json → Bool
  | none => false
  | some .null => false
  | some (.bool b) => b
  | some (.num n) => decide (n ≠ 0)
  | some (.str s) => !s.isEmpty
  | some (.arr xs) => !xs.isEmpty
  | some (.obj kvs) => !kvs.isEmpty

/-- The subprocess outcome observed by `_run_compiler`. -/
structure ProcResult where
  returncode : Int
  stdout : Str
  stderr : Str

/-- Lines 94–113 of `compiler.py` (the response handling of
`SvelteCompiler._run_compiler`): on exit 0, `json.loads(result.stdout)` —
whose failure *raises* out of the method — then either restructure a
successful payload or return the failure payload as is; on non-zero exit,
return a `success: False` dict embedding stderr. -/
def runCompilerProcess (bundledPackages : List (Str × Str))
    (res : ProcResult) : Except Str Json :=
  if res.returncode = 0 then
    match parseJson res.stdout with
    | none => .error (str "json.decoder.JSONDecodeError")
    | some compileResult =>
      match compileResult with
      | .obj _ =>
        if jsonTruthy (jsonGet compileResult (str "success")) then
          match (jsonGet compileResult (str "main")).bind
              (fun m => jsonGet m (str "js")),
              (jsonGet compileResult (str "main")).bind
              (fun m => jsonGet m (str "css")) with
          | some js, some css =>
            .ok (.obj
              [(str "success", .bool true), (str "js", js), (str "css", css),
               (str "components",
                (jsonGet compileResult (str "components")).getD (.obj [])),
               (str "bundled_packages",
                .obj (bundledPackages.map fun kv => (kv.1, .str kv.2)))])
          | _, _ => .error (str "KeyError")
        else .ok compileResult
      | _ => .error (str "AttributeError: get")
  else
    .ok (.obj
      [(str "success", .bool false),
       (str "error", .str (str "Compiler process failed: " ++ res.stderr)),
       (str "stdout", .str res.stdout)])

/-! ## `fymo.core.runtime.JSRuntime` startup -/

/-- The absolute path `_load_real_server_runtime` probes:
`{package dir}/bundler/js/dist/svelte-server-runtime.js`. -/
def serverRuntimePath : Str :=
  str "fymo/bundler/js/dist/svelte-server-runtime.js"

/-- `JSRuntime._load_real_server_runtime`: return the bundled server
runtime's text when the file exists and is readable, else `None` (any read
failure is caught, printed and also yields `None`). -/
def loadRealServerRuntime (fs : Str → Option Str) : Option Str :=
  fs serverRuntimePath

/-- The console-shim / CommonJS-setup text prepended to the real server
runtime (abbreviated to its head — no claim depends on the JS text, only on
which branch builds `runtime_code`). -/
def realRuntimePrefix : Str :=
  str "// Setup minimal console for error tracking\n"

/-- The initialization block appended after the real server runtime
(abbreviated likewise). -/
def realRuntimeSuffix : Str :=
  str "\n// Now extract the exported SvelteServer from module.exports\n"

/-- `JSRuntime._get_mocked_runtime` (abbreviated likewise). -/
def mockedRuntimeCode : Str :=
  str "// Svelte 5 SSR Runtime - Mocked implementation that works\n"

/-- `JSRuntime._setup_runtime`: try the real server runtime; embed it into
the composite startup script when found, otherwise *fall back to the mocked
runtime* after printing a warning.  An `Except.error` would be a raised
exception — no branch produces one. -/
def setupRuntime (fs : Str → Option Str) : Except Str Str :=
  match loadRealServerRuntime fs with
  | some serverRuntime =>
    .ok (realRuntimePrefix ++ serverRuntime ++ realRuntimeSuffix)
  | none => .ok mockedRuntimeCode

/-! ## `fymo.core.template_renderer.TemplateRenderer._sanitize_js` -/

/-- The fixed blacklist, in source order. -/
def dangerousPatterns : List Str :=
  [str "eval(", str "Function(", str "setTimeout(", str "setInterval(",
   str "document.write(", str "innerHTML", str "outerHTML",
   str "document.cookie", str "localStorage", str "sessionStorage"]

/-- `f'/* BLOCKED: {pattern} */'`. -/
def blockedComment (p : Str) : Str := str "/* BLOCKED: " ++ p ++ str " */"

/-- `TemplateRenderer._sanitize_js`: for each blacklisted pattern, when the
pattern occurs case-insensitively, replace every exact occurrence with the
inert block comment. -/
def sanitizeJs (jsCode : Str) : Str :=
  dangerousPatterns.foldl
    (fun sanitized p =>
      if pyContains (pyLower sanitized) (pyLower p) then
        pyReplace sanitized p (blockedComment p)
      else sanitized)
    jsCode

/-! ## Concrete instances used in the theorems below -/

/-- A fresh resolver/bundler state. -/
def emptyResolverState : ResolverState :=
  { componentCache := [], dependencyGraph := [], bundleCache := [],
    toolRuns := 0 }

/-- A component source with two named npm imports from distinct modules. -/
def npmTwoImportSrc : Str := str "import {a} from 'x';\nimport {b} from 'y';"

/-- A toolchain whose every invocation fails. -/
def failingTool : Toolchain := fun _ _ => .fail (str "boom")

/-- A deterministic, always-succeeding toolchain. -/
def constTool : Toolchain := fun pkg _ => .ok (str "BUNDLE:" ++ pkg)

/-- The state after bundling package `x` for target `browser` from scratch
with `constTool`. -/
def constToolStateAfterX : ResolverState :=
  { componentCache := [], dependencyGraph := [],
    bundleCache := [(str "x_browser", str "BUNDLE:x")], toolRuns := 1 }

/-- The route table obtained by registering the single resource `posts`. -/
def postsRouter : RouterState :=
  expandResources { routes := [], resources := [str "posts"] }

/-- A router with one explicit exact route. -/
def aboutRouter : RouterState :=
  { routes := [(str "/about",
      mkRouteEntry (str "pages") (str "about") (str "pages/about.svelte"))],
    resources := [] }

/-- A component that imports itself. -/
def cycSelfSrc : Str := str "import C from './C.svelte';"

/-- A self-cycle whose first import is a missing file. -/
def cycMissingSrc : Str :=
  str "import M from './missing.svelte';\nimport C from './C.svelte';"

/-- File system holding only the self-importing component. -/
def cycFs : Str → Option Str := fun p =>
  if p = str "app/C.svelte" then some cycSelfSrc else none

/-- File system holding only the missing-then-self-importing component. -/
def cycMissingFs : Str → Option Str := fun p =>
  if p = str "app/C.svelte" then some cycMissingSrc else none

/-- Environment over `cycFs`. -/
def cycEnv : ResolveEnv :=
  { fs := cycFs, tool := failingTool, troot := str "app",
    target := str "browser" }

/-- Environment over `cycMissingFs`. -/
def cycMissingEnv : ResolveEnv :=
  { fs := cycMissingFs, tool := failingTool, troot := str "app",
    target := str "browser" }

/-- An acyclic one-import source. -/
def acySrc : Str := str "import B from './B.svelte';"

/-- File system for the acyclic case: only the leaf component exists. -/
def acyFs : Str → Option Str := fun p =>
  if p = str "app/B.svelte" then some (str "<h2>B</h2>") else none

/-- Environment over `acyFs`. -/
def acyEnv : ResolveEnv :=
  { fs := acyFs, tool := failingTool, troot := str "app",
    target := str "browser" }

/-- An import-depth rank for `acyFs`: the root is above the leaf. -/
def acyRank : Str → Nat := fun p => if p = str "app/A.svelte" then 1 else 0

/-- A resolver state with a cached parent, child, grandparent and an
unrelated file, and dependency edges grandparent → parent → child. -/
def invalidationStateFix : ResolverState :=
  { componentCache :=
      [(str "p", str "SP"), (str "q", str "SQ"), (str "g", str "SG"),
       (str "o", str "SO")],
    dependencyGraph := [(str "q", [str "p"]), (str "g", [str "q"])],
    bundleCache := [], toolRuns := 0 }

/-- The component cache agrees with the file system on its domain (every
cached text is the file's content).  `resolve_imports` only ever caches
texts read from the file system, so this invariant is preserved throughout
and is assumed of the starting state in the termination analysis below. -/
def cacheGood (fs : Str → Option Str) (st : ResolverState) : Prop :=
  ∀ k v, dlookup st.componentCache k = some v → fs k = some v

/-! ## Claim theorems -/

/-- C1 counterexample: on a file system with no bundled server-runtime
file, `_setup_runtime` completes normally with the mocked runtime — it does
not raise, contradicting the claim that startup fails fast and never
substitutes a degraded runtime. -/
theorem setupRuntime_missing_library_falls_back :
    setupRuntime (fun _ => none) = .ok mockedRuntimeCode := rfl

/-- C1 (amended): startup never raises.  When the bundled library file is
found its text is embedded into the composite startup script; when it is
not found, startup completes with the mocked fallback runtime (after
printing a warning). -/
theorem setupRuntime_loads_or_mocks :
    (∀ fs : Str → Option Str, (setupRuntime fs).isOk = true) ∧
    (∀ fs : Str → Option Str, fs serverRuntimePath = none →
      setupRuntime fs = .ok mockedRuntimeCode) ∧
    (∀ (fs : Str → Option Str) (rt : Str), fs serverRuntimePath = some rt →
      setupRuntime fs = .ok (realRuntimePrefix ++ rt ++ realRuntimeSuffix)) := by
  refine ⟨fun fs => ?_, fun fs h => ?_, fun fs rt h => ?_⟩
  · unfold setupRuntime loadRealServerRuntime
    cases fs serverRuntimePath <;> rfl
  · unfold setupRuntime loadRealServerRuntime
    rw [h]
  · unfold setupRuntime loadRealServerRuntime
    rw [h]

/-- Witness for C1's amended theorem at two concrete file systems. -/
theorem setupRuntime_loads_or_mocks_witness :
    setupRuntime (fun _ => none) = .ok mockedRuntimeCode ∧
    setupRuntime (fun _ => some (str "LIB")) =
      .ok (realRuntimePrefix ++ str "LIB" ++ realRuntimeSuffix) :=
  ⟨setupRuntime_loads_or_mocks.2.1 (fun _ => none) rfl,
   setupRuntime_loads_or_mocks.2.2 (fun _ => some (str "LIB")) (str "LIB") rfl⟩

/-- C2 counterexample: a zero-exit compiler subprocess whose stdout is not
JSON makes `_run_compiler` raise (the `json.loads` call is outside any
`try`), rather than return a `success: False` artifact as claimed. -/
theorem runCompiler_malformed_json_raises :
    runCompilerProcess []
      { returncode := 0, stdout := str "not json", stderr := [] } =
    .error (str "json.decoder.JSONDecodeError") := rfl

/-- C2 (amended): a non-zero exit returns (not raises) a `success: False`
artifact embedding stderr, and a parsed payload that is an object with a
falsy `success` is returned verbatim; but malformed JSON under a zero exit
raises a JSON decode error out of `_run_compiler`. -/
theorem runCompiler_failure_artifacts :
    (∀ (b : List (Str × Str)) (res : ProcResult), res.returncode ≠ 0 →
      runCompilerProcess b res = .ok (.obj
        [(str "success", .bool false),
         (str "error", .str (str "Compiler process failed: " ++ res.stderr)),
         (str "stdout", .str res.stdout)])) ∧
    (∀ (b : List (Str × Str)) (res : ProcResult) (kvs : List (Str × Json)),
      res.returncode = 0 →
      parseJson res.stdout = some (.obj kvs) →
      jsonTruthy (jsonGet (.obj kvs) (str "success")) = false →
      runCompilerProcess b res = .ok (.obj kvs)) ∧
    (∀ (b : List (Str × Str)) (res : ProcResult),
      res.returncode = 0 → parseJson res.stdout = none →
      runCompilerProcess b res =
        .error (str "json.decoder.JSONDecodeError")) := by
  refine ⟨fun b res h => ?_, fun b res kvs h0 hp hs => ?_,
    fun b res h0 hp => ?_⟩
  · unfold runCompilerProcess
    rw [if_neg h]
  · unfold runCompilerProcess
    rw [if_pos h0, hp]
    simp [hs]
  · unfold runCompilerProcess
    rw [if_pos h0, hp]

/-- Witness for C2's amended theorem at three concrete subprocess
outcomes. -/
theorem runCompiler_failure_artifacts_witness :
    runCompilerProcess [] { returncode := 1, stdout := [], stderr := str "B" }
      = .ok (.obj
        [(str "success", .bool false),
         (str "error", .str (str "Compiler process failed: " ++ str "B")),
         (str "stdout", .str [])]) ∧
    runCompilerProcess []
      { returncode := 0, stdout := str "\x7b\"success\": false\x7d", stderr := [] }
      = .ok (.obj [(str "success", .bool false)]) ∧
    runCompilerProcess []
      { returncode := 0, stdout := str "not json", stderr := [] }
      = .error (str "json.decoder.JSONDecodeError") :=
  ⟨runCompiler_failure_artifacts.1 []
      { returncode := 1, stdout := [], stderr := str "B" } (by decide),
   runCompiler_failure_artifacts.2.1 []
      { returncode := 0, stdout := str "\x7b\"success\": false\x7d", stderr := [] }
      [(str "success", .bool false)] rfl rfl rfl,
   runCompiler_failure_artifacts.2.2 []
      { returncode := 0, stdout := str "not json", stderr := [] } rfl rfl⟩

/-- C4: for every registered exact route (no `:param` segment) whose
pattern is its own normalization (it is `/` or carries no trailing slash —
the normalization step strips one trailing slash except for the root),
`match` with the pattern as the path hits the direct table lookup first and
returns that route's stored entry unchanged, with the router state
untouched. -/
theorem routerMatch_exact_route (st : RouterState) (p : Str) (e : RouteInfo)
    (hnorm : p = str "/" ∨ pyEndsWithChar p '/' = false)
    (_hstatic : p.contains ':' = false)
    (hreg : dlookup st.routes p = some e) :
    routerMatch st p = (some e, st) := by
  have hn : (if p = str "/" then p
      else if pyEndsWithChar p '/' then pyDropLast p else p) = p := by
    rcases hnorm with h | h
    · simp [h]
    · simp [h]
  unfold routerMatch
  simp only [hn, hreg]

/-- Witness for C4 on a one-route table. -/
theorem routerMatch_exact_route_witness :
    routerMatch aboutRouter (str "/about") =
      (some (mkRouteEntry (str "pages") (str "about")
        (str "pages/about.svelte")), aboutRouter) :=
  routerMatch_exact_route aboutRouter (str "/about")
    (mkRouteEntry (str "pages") (str "about") (str "pages/about.svelte"))
    (Or.inr (by decide)) (by decide) (by decide)

/-- C5: on the table synthesized for resource `posts`, `/posts` and
`/posts/new` resolve by direct hits, but the dynamic `:id` routes are dead
code: `/posts/5` does NOT resolve to `show` with `{id: "5"}` — it falls
through to convention-based routing as action `"5"` — and `/posts/5/edit`
matches nothing at all.  The root cause (last conjunct): on Python >= 3.7,
`re.escape` leaves `:` unescaped, so `re.sub(r'\\:(\w+)', ...)` in
`Router.match` finds no `\:` and the built pattern stays the literal
`^/posts/:id$`. -/
theorem postsRouter_dynamic_routes_dead :
    (routerMatch postsRouter (str "/posts")).1 =
      some (mkRouteEntry (str "posts") (str "index")
        (str "posts/index.svelte")) ∧
    (routerMatch postsRouter (str "/posts/new")).1 =
      some (mkRouteEntry (str "posts") (str "new")
        (str "posts/new.svelte")) ∧
    (routerMatch postsRouter (str "/posts/5")).1 =
      some (mkRouteEntry (str "posts") (str "5")
        (str "posts/5.svelte")) ∧
    (routerMatch postsRouter (str "/posts/5/edit")).1 = none ∧
    subColonParams (reEscape (str "/posts/:id")) = str "/posts/:id" := by
  decide

/-- C3: `extract_npm_imports` pairs *every* findall match of a pattern with
`re.search(pattern, source).group(0)` — the *first* matching statement's
text — so with two named imports the `y` pair carries `x`'s statement text.
Consequently the failure-stripping removes the wrong statement: with the
toolchain failing for both modules, `x`'s import is stripped but the
statement importing `y` survives in the rewritten source.  The last conjunct
re-runs the stripping fold in the opposite package order and reaches the
same surviving text, so the unspecified `set` iteration order of CPython
does not affect this outcome. -/
theorem extractNpmImports_first_match_and_misstrip :
    extractNpmImports npmTwoImportSrc =
      [(str "import {a} from 'x';", str "x"),
       (str "import {a} from 'x';", str "y")] ∧
    (bundleNpmPackages failingTool (str "browser") emptyResolverState
        npmTwoImportSrc).1 = str "\nimport {b} from 'y';" ∧
    pyContains (bundleNpmPackages failingTool (str "browser")
        emptyResolverState npmTwoImportSrc).1
      (str "import {b} from 'y';") = true ∧
    ([str "y", str "x"].foldl
      (fun m pkg => (extractNpmImports npmTwoImportSrc).foldl
        (fun m' si => if si.2 = pkg then pyReplace m' si.1 [] else m') m)
      npmTwoImportSrc) = str "\nimport {b} from 'y';" := by
  decide

/-- The parent-invalidation fold never resurrects an absent cache entry. -/
theorem invFold_preserves_none (g : List (Str × List Str))
    (c : List (Str × Str)) (p q : Str) (h : dlookup c q = none) :
    dlookup (g.foldl
      (fun c pd =>
        if pd.2.contains p && dhasKey c pd.1 then derase c pd.1 else c)
      c) q = none := by
  induction g generalizing c with
  | nil => exact h
  | cons pd t ih =>
    simp only [List.foldl_cons]
    apply ih
    by_cases hc : pd.2.contains p && dhasKey c pd.1
    · rw [if_pos hc, dlookup_derase]
      by_cases hq : q = pd.1 <;> simp [hq, h]
    · rw [if_neg hc]; exact h

/-- The parent-invalidation fold leaves keys without a recorded dependency
on `p` untouched. -/
theorem invFold_keeps_nondependents (g : List (Str × List Str))
    (c : List (Str × Str)) (p q : Str)
    (hq : ∀ deps, (q, deps) ∈ g → deps.contains p = false) :
    dlookup (g.foldl
      (fun c pd =>
        if pd.2.contains p && dhasKey c pd.1 then derase c pd.1 else c)
      c) q = dlookup c q := by
  induction g generalizing c with
  | nil => rfl
  | cons pd t ih =>
    simp only [List.foldl_cons]
    have htail : ∀ deps, (q, deps) ∈ t → deps.contains p = false :=
      fun deps hm => hq deps (List.mem_cons_of_mem _ hm)
    by_cases hpd : pd.1 = q
    · have hdep : pd.2.contains p = false := by
        apply hq pd.2
        have : pd = (q, pd.2) := by
          obtain ⟨a, b⟩ := pd
          simp at hpd
          rw [hpd]
        rw [← this]
        exact List.mem_cons_self _ _
      rw [hdep]
      simp only [Bool.false_and, if_neg Bool.false_ne_true]
      exact ih c htail
    · by_cases hc : pd.2.contains p && dhasKey c pd.1
      · rw [if_pos hc]
        rw [ih _ htail, dlookup_derase]
        have : ¬ q = pd.1 := fun h => hpd h.symm
        rw [if_neg this]
      · rw [if_neg hc]
        exact ih c htail

/-- The parent-invalidation fold removes the entry of every recorded direct
parent of `p`. -/
theorem invFold_removes_parents (g : List (Str × List Str))
    (c : List (Str × Str)) (p q : Str) (deps : List Str)
    (hmem : (q, deps) ∈ g) (hdep : deps.contains p = true) :
    dlookup (g.foldl
      (fun c pd =>
        if pd.2.contains p && dhasKey c pd.1 then derase c pd.1 else c)
      c) q = none := by
  induction g generalizing c with
  | nil => cases hmem
  | cons pd t ih =>
    simp only [List.foldl_cons]
    rcases List.mem_cons.mp hmem with heq | hmem'
    · subst heq
      simp only [hdep, Bool.true_and]
      by_cases hk : dhasKey c q
      · rw [if_pos hk]
        apply invFold_preserves_none
        rw [dlookup_derase, if_pos rfl]
      · rw [if_neg hk]
        apply invFold_preserves_none
        unfold dhasKey at hk
        cases h : dlookup c q
        · rfl
        · rw [h] at hk; simp at hk
    · exact ih _ hmem'

/-- C6: `invalidate_cache_for_file(p)` removes exactly `p`'s cache entry
and the cache entry of every file with a recorded *direct* dependency edge
to `p`; every other cache entry, the dependency graph, and the bundle cache
are unchanged (so grandparents — files depending on `p` only transitively —
keep their entries). -/
theorem invalidateCache_only_file_and_direct_parents
    (st : ResolverState) (p q : Str) :
    (invalidateCacheForFile st p).dependencyGraph = st.dependencyGraph ∧
    (invalidateCacheForFile st p).bundleCache = st.bundleCache ∧
    ((q = p ∨ ∃ deps, (q, deps) ∈ st.dependencyGraph ∧
        deps.contains p = true) →
      dlookup (invalidateCacheForFile st p).componentCache q = none) ∧
    (¬ q = p →
      (∀ deps, (q, deps) ∈ st.dependencyGraph → deps.contains p = false) →
      dlookup (invalidateCacheForFile st p).componentCache q =
        dlookup st.componentCache q) := by
  refine ⟨rfl, rfl, fun h => ?_, fun hq hdeps => ?_⟩
  · unfold invalidateCacheForFile
    rcases h with hq | ⟨deps, hmem, hdep⟩
    · subst hq
      apply invFold_preserves_none
      by_cases hk : dhasKey st.componentCache q
      · rw [if_pos hk, dlookup_derase, if_pos rfl]
      · rw [if_neg hk]
        unfold dhasKey at hk
        cases h : dlookup st.componentCache q
        · rfl
        · rw [h] at hk; simp at hk
    · exact invFold_removes_parents _ _ _ _ deps hmem hdep
  · unfold invalidateCacheForFile
    rw [invFold_keeps_nondependents _ _ _ _ hdeps]
    by_cases hk : dhasKey st.componentCache p
    · rw [if_pos hk, dlookup_derase, if_neg hq]
    · rw [if_neg hk]

/-- Witness for C6 on a concrete state: child `p` cached, parent `q` with
edge `q → p`, grandparent `g` with edge `g → q`, unrelated `o`.
Invalidating `p` drops `p` and `q`, keeps `g` (the grandparent) and `o`,
and leaves the graph intact. -/
theorem invalidateCache_witness :
    dlookup (invalidateCacheForFile invalidationStateFix
      (str "p")).componentCache (str "p") = none ∧
    dlookup (invalidateCacheForFile invalidationStateFix
      (str "p")).componentCache (str "q") = none ∧
    dlookup (invalidateCacheForFile invalidationStateFix
      (str "p")).componentCache (str "g") =
      dlookup invalidationStateFix.componentCache (str "g") ∧
    dlookup (invalidateCacheForFile invalidationStateFix
      (str "p")).componentCache (str "o") =
      dlookup invalidationStateFix.componentCache (str "o") ∧
    (invalidateCacheForFile invalidationStateFix
      (str "p")).dependencyGraph = invalidationStateFix.dependencyGraph := by
  have hg : ∀ deps, ((str "g", deps) : Str × List Str) ∈
      invalidationStateFix.dependencyGraph →
      deps.contains (str "p") = false := by
    intro deps hmem
    simp only [invalidationStateFix, List.mem_cons,
      List.not_mem_nil, or_false, Prod.mk.injEq] at hmem
    rcases hmem with ⟨h1, _⟩ | ⟨_, h2⟩
    · exact absurd h1 (by decide)
    · subst h2; decide
  have ho : ∀ deps, ((str "o", deps) : Str × List Str) ∈
      invalidationStateFix.dependencyGraph →
      deps.contains (str "p") = false := by
    intro deps hmem
    simp only [invalidationStateFix, List.mem_cons,
      List.not_mem_nil, or_false, Prod.mk.injEq] at hmem
    rcases hmem with ⟨h1, _⟩ | ⟨h1, _⟩ <;> exact absurd h1 (by decide)
  exact ⟨(invalidateCache_only_file_and_direct_parents invalidationStateFix
      (str "p") (str "p")).2.2.1 (Or.inl rfl),
    (invalidateCache_only_file_and_direct_parents invalidationStateFix
      (str "p") (str "q")).2.2.1
      (Or.inr ⟨[str "p"], by decide, by decide⟩),
    (invalidateCache_only_file_and_direct_parents invalidationStateFix
      (str "p") (str "g")).2.2.2 (by decide) hg,
    (invalidateCache_only_file_and_direct_parents invalidationStateFix
      (str "p") (str "o")).2.2.2 (by decide) ho,
    (invalidateCache_only_file_and_direct_parents invalidationStateFix
      (str "p") (str "p")).1⟩

/-- Unfolding equation: containment on a cons cell. -/
theorem pyContains_cons (c : Char) (t p : Str) :
    pyContains (c :: t) p = (p.isPrefixOf (c :: t) || pyContains t p) := by
  rw [pyContains]

/-- Unfolding equation: containment in the empty string. -/
theorem pyContains_nil (p : Str) : pyContains [] p = p.isPrefixOf [] := by
  rw [pyContains]
  simp

/-- Substring containment is preserved by any character map (in particular
by lowercasing: an exact occurrence is also a case-insensitive one). -/
theorem pyContains_map (f : Char → Char) (s p : Str)
    (h : pyContains s p = true) :
    pyContains (s.map f) (p.map f) = true := by
  induction s with
  | nil =>
    rw [pyContains_nil] at h
    have : p = [] := by
      have := List.isPrefixOf_iff_prefix.mp h
      exact List.prefix_nil.mp this
    subst this
    simp only [List.map_nil]
    rw [pyContains_nil]
    rfl
  | cons c t ih =>
    rw [pyContains_cons] at h
    rw [List.map_cons, pyContains_cons]
    rcases Bool.or_eq_true_iff.mp h with hpre | htail
    · have := (List.isPrefixOf_iff_prefix.mp hpre).map f
      rw [List.map_cons] at this
      exact Bool.or_eq_true_iff.mpr (Or.inl (List.isPrefixOf_iff_prefix.mpr this))
    · exact Bool.or_eq_true_iff.mpr (Or.inr (ih htail))

/-- `str.replace` is the identity when the pattern does not occur. -/
theorem pyReplaceAux_of_not_contains (p m : Str) (fuel : Nat) (s : Str)
    (h : pyContains s p = false) : pyReplaceAux p m fuel s = s := by
  induction fuel generalizing s with
  | zero => rfl
  | succ fuel ih =>
    have hp : ¬ p = [] := by
      intro he
      subst he
      cases s with
      | nil => rw [pyContains_nil] at h; simp [List.isPrefixOf] at h
      | cons c t =>
        rw [pyContains_cons] at h
        simp [List.isPrefixOf] at h
    have hpre : p.isPrefixOf s = false := by
      cases s with
      | nil =>
        rw [pyContains_nil] at h; exact h
      | cons c t =>
        rw [pyContains_cons] at h
        exact (Bool.or_eq_false_iff.mp h).1
    unfold pyReplaceAux
    rw [if_neg hp, hpre]
    simp only [Bool.false_eq_true, if_false]
    cases s with
    | nil => rfl
    | cons c t =>
      have htail : pyContains t p = false := by
        rw [pyContains_cons] at h
        exact (Bool.or_eq_false_iff.mp h).2
      change c :: pyReplaceAux p m fuel t = c :: t
      rw [ih t htail]

/-- The case-insensitive gate in `_sanitize_js` never changes the result:
when it is closed, the exact pattern cannot occur either, and replacing a
non-occurring pattern is the identity. -/
theorem sanitize_fold_gate_irrelevant (l : List Str) (js : Str) :
    l.foldl
      (fun sanitized p =>
        if pyContains (pyLower sanitized) (pyLower p) then
          pyReplace sanitized p (blockedComment p)
        else sanitized) js =
    l.foldl (fun sanitized p => pyReplace sanitized p (blockedComment p)) js := by
  induction l generalizing js with
  | nil => rfl
  | cons p t ih =>
    simp only [List.foldl_cons]
    by_cases hg : pyContains (pyLower js) (pyLower p) = true
    · rw [if_pos hg]
      exact ih _
    · rw [if_neg hg]
      have hnc : pyContains js p = false := by
        cases h : pyContains js p
        · rfl
        · exact absurd (pyContains_map Char.toLower js p h) hg
      have hid : pyReplace js p (blockedComment p) = js :=
        pyReplaceAux_of_not_contains p (blockedComment p) (js.length + 1) js hnc
      rw [hid]
      exact ih _

/-- C7: `_sanitize_js` replaces, for each of the ten blacklisted token
patterns, every exact occurrence in the custom script with the inert
`/* BLOCKED: ... */` comment (`str.replace` replaces all occurrences, and
the case-insensitive gate never suppresses a replacement of an exact
occurrence); in particular a script containing `eval(` has that substring
replaced by the marker. -/
theorem sanitizeJs_replaces_blacklisted :
    (∀ jsCode : Str, sanitizeJs jsCode =
      dangerousPatterns.foldl
        (fun sanitized p => pyReplace sanitized p (blockedComment p))
        jsCode) ∧
    sanitizeJs (str "eval(x)") = str "/* BLOCKED: eval( */x)" :=
  ⟨fun jsCode => sanitize_fold_gate_irrelevant dangerousPatterns jsCode,
   by decide⟩

/-- C8: once `_bundle_single_package` has succeeded for a package/target
pair, a second call with the same pair is answered from `bundle_cache` with
the identical bundled text and an unchanged state — in particular no second
toolchain invocation — and the pair of calls ran the toolchain at most
once. -/
theorem bundleCache_hit_on_second_call (tool : Toolchain)
    (st st' : ResolverState) (pkg target text : Str)
    (h : bundleSinglePackage tool st pkg target = (.ok text, st')) :
    bundleSinglePackage tool st' pkg target = (.ok text, st') ∧
    st'.toolRuns ≤ st.toolRuns + 1 := by
  simp only [bundleSinglePackage] at h ⊢
  cases hc : dlookup st.bundleCache (pkg ++ [ '_' ] ++ target) with
  | some cached =>
    rw [hc] at h
    obtain ⟨h1, h2⟩ := Prod.ext_iff.mp h
    have htext : text = cached := (Except.ok.inj h1).symm
    subst htext
    subst h2
    rw [hc]
    exact ⟨rfl, Nat.le_succ _⟩
  | none =>
    rw [hc] at h
    cases htool : tool pkg target with
    | ok code =>
      rw [htool] at h
      obtain ⟨h1, h2⟩ := Prod.ext_iff.mp h
      have htext : text = code := (Except.ok.inj h1).symm
      subst htext
      subst h2
      simp only [dlookup_dinsert, if_pos rfl]
      exact ⟨rfl, Nat.le_refl _⟩
    | fail e =>
      rw [htool] at h
      exact absurd (Prod.ext_iff.mp h).1 (by simp)

/-- Witness for C8: bundling `x` for `browser` once with a deterministic
toolchain, then applying the theorem to the resulting state. -/
theorem bundleCache_hit_on_second_call_witness :
    bundleSinglePackage constTool constToolStateAfterX (str "x")
      (str "browser") = (.ok (str "BUNDLE:x"), constToolStateAfterX) ∧
    constToolStateAfterX.toolRuns ≤ emptyResolverState.toolRuns + 1 :=
  bundleCache_hit_on_second_call constTool emptyResolverState
    constToolStateAfterX (str "x") (str "browser") (str "BUNDLE:x") rfl

/-- C10: `Router.match` never mutates the router: the returned state is the
input state, so every stored route entry (in particular, one without a
`params` key) is looked up unchanged after any call — the dynamic branch
attaches its captured params only to the returned copy
(`dinsert routeInfo "params" ...`), never to the table. -/
theorem routerMatch_no_mutation (st : RouterState) (path : Str) :
    (routerMatch st path).2 = st ∧
    (∀ pat info, dlookup st.routes pat = some info →
      dlookup ((routerMatch st path).2).routes pat = some info) := by
  have hst : (routerMatch st path).2 = st := by
    simp only [routerMatch]
    repeat' split
    all_goals rfl
  exact ⟨hst, fun pat info h => by rw [hst]; exact h⟩

/-- Witness for C10 on the posts table and a dynamic-looking path. -/
theorem routerMatch_no_mutation_witness :
    dlookup ((routerMatch postsRouter (str "/posts/5")).2).routes
      (str "/posts/:id") =
      some (mkRouteEntry (str "posts") (str "show")
        (str "posts/show.svelte")) :=
  (routerMatch_no_mutation postsRouter (str "/posts/5")).2
    (str "/posts/:id")
    (mkRouteEntry (str "posts") (str "show") (str "posts/show.svelte"))
    (by decide)

/-- A fold stays at an absorbing accumulator value. -/
theorem foldl_absorbs {α β : Type} (f : β → α → β) (z : β)
    (hz : ∀ a, f z a = z) : ∀ l : List α, l.foldl f z = z
  | [] => rfl
  | a :: t => by rw [List.foldl_cons, hz a, foldl_absorbs f z hz t]

/-- `bundle_npm_packages` is the identity (and calls no toolchain) on a
source free of external-module imports. -/
theorem bundleNpm_of_no_imports (tool : Toolchain) (target : Str)
    (st : ResolverState) (s : Str) (h : extractNpmImports s = []) :
    bundleNpmPackages tool target st s = (s, [], st) := by
  simp only [bundleNpmPackages, h]
  rfl

/-- `_track_dependency` does not touch the component cache. -/
theorem trackDependency_componentCache (st : ResolverState) (a b : Str) :
    (trackDependency st a b).componentCache = st.componentCache := by
  simp only [trackDependency]
  split <;> rfl

/-- Loading a component under a consistent cache returns the file's text
and preserves consistency. -/
theorem loadComponent_of_cacheGood (fs : Str → Option Str)
    (st : ResolverState) (path s : Str) (hg : cacheGood fs st)
    (hfs : fs path = some s) :
    ∃ st1, loadComponent fs st path = some (s, st1) ∧ cacheGood fs st1 := by
  unfold loadComponent
  cases hc : dlookup st.componentCache path with
  | some v =>
    have hv : v = s := by
      have := hg path v hc
      rw [hfs] at this
      exact (Option.some.inj this).symm
    subst hv
    exact ⟨st, rfl, hg⟩
  | none =>
    rw [hfs]
    refine ⟨_, rfl, fun k v hk => ?_⟩
    rw [dlookup_dinsert] at hk
    by_cases hpk : path = k
    · rw [if_pos hpk] at hk
      rw [← hpk, hfs, hk]
    · rw [if_neg hpk] at hk
      exact hg k v hk

/-- Unfolding `resolve_imports` one level on a source that is free of
external-module dependencies. -/
theorem resolveImports_succ_npmFree (env : ResolveEnv) (fuel : Nat)
    (st : ResolverState) (src p : Str) (hnpm : extractNpmImports src = []) :
    resolveImports env (fuel + 1) st src p =
      match (svelteImportsOf src).foldl
          (importStep env
            (fun st1 s1 p1 => resolveImports env fuel st1 s1 p1) p)
          (PRes.ok [] [] st) with
      | .fuelOut => .fuelOut
      | .err e => .err e
      | .ok ic bp st2 =>
        .ok (reSub sveltePat (fun _ => []) src) ic bp st2 := by
  conv_lhs => rw [resolveImports]
  rw [bundleNpm_of_no_imports env.tool env.target st src hnpm]

/-- Divergence: if every path in a set `S` holds a file whose first
`.svelte` import resolves back into `S` (and has no external imports), then
resolving any source whose first import enters `S` exhausts every
recursion-depth bound — the embedded counterpart of unbounded recursion. -/
theorem resolveImports_trap_diverges (env : ResolveEnv) (S : Str → Prop)
    (htrap : ∀ q, S q → ∃ s, env.fs q = some s ∧
      extractNpmImports s = [] ∧
      ∃ nm ip rest, svelteImportsOf s = (nm, ip) :: rest ∧
        S (resolveImportPath env.troot ip q)) :
    ∀ (fuel : Nat) (st : ResolverState) (src p : Str),
      cacheGood env.fs st →
      extractNpmImports src = [] →
      (∃ nm ip rest, svelteImportsOf src = (nm, ip) :: rest ∧
        S (resolveImportPath env.troot ip p)) →
      resolveImports env fuel st src p = .fuelOut := by
  intro fuel
  induction fuel with
  | zero => intro st src p _ _ _; rfl
  | succ fuel ih =>
    rintro st src p hg hnpm ⟨nm, ip, rest, himps, hS⟩
    rw [resolveImports_succ_npmFree env fuel st src p hnpm, himps,
      List.foldl_cons]
    obtain ⟨s', hfs', hnpm', nm', ip', rest', himps', hS'⟩ :=
      htrap _ hS
    obtain ⟨st1, hload, hg1⟩ :=
      loadComponent_of_cacheGood env.fs st
        (resolveImportPath env.troot ip p) s' hg hfs'
    have hstep :
        importStep env
          (fun st1 s1 p1 => resolveImports env fuel st1 s1 p1) p
          (PRes.ok [] [] st) (nm, ip) = .fuelOut := by
      simp only [importStep, hfs', hload]
      rw [ih st1 s' (resolveImportPath env.troot ip p) hg1 hnpm'
        ⟨nm', ip', rest', himps', hS'⟩]
    rw [hstep,
      foldl_absorbs
        (importStep env
          (fun st1 s1 p1 => resolveImports env fuel st1 s1 p1) p)
        .fuelOut (fun _ => rfl) rest]

/-- The import loop neither exhausts fuel nor breaks cache consistency,
provided the per-child resolver `r` does not (on children of smaller
rank). -/
theorem importFold_ok (env : ResolveEnv) (rank : Str → Nat) (fuel : Nat)
    (Hfs : ∀ q s, env.fs q = some s → extractNpmImports s = [] ∧
      ∀ nm ip, (nm, ip) ∈ svelteImportsOf s →
        rank (resolveImportPath env.troot ip q) < rank q)
    (r : ResolverState → Str → Str → RRes)
    (hr : ∀ st1 s1 p1, cacheGood env.fs st1 →
      extractNpmImports s1 = [] →
      (∀ nm ip, (nm, ip) ∈ svelteImportsOf s1 →
        rank (resolveImportPath env.troot ip p1) < rank p1) →
      rank p1 < fuel →
      r st1 s1 p1 ≠ .fuelOut ∧
      (∀ o i b st2, r st1 s1 p1 = .ok o i b st2 → cacheGood env.fs st2))
    (p : Str) :
    ∀ (l : List (Str × Str)) (acc : PRes),
      (∀ nm ip, (nm, ip) ∈ l →
        rank (resolveImportPath env.troot ip p) < fuel) →
      acc ≠ .fuelOut →
      (∀ i b stA, acc = .ok i b stA → cacheGood env.fs stA) →
      (l.foldl (importStep env r p) acc ≠ .fuelOut ∧
       ∀ i b stA, l.foldl (importStep env r p) acc = .ok i b stA →
         cacheGood env.fs stA) := by
  intro l
  induction l with
  | nil => intro acc _ hne hok; exact ⟨hne, hok⟩
  | cons imp t ihl =>
    intro acc hl hne hok
    rw [List.foldl_cons]
    have htail : ∀ nm ip, (nm, ip) ∈ t →
        rank (resolveImportPath env.troot ip p) < fuel :=
      fun nm ip hm => hl nm ip (List.mem_cons_of_mem _ hm)
    cases acc with
    | err e =>
      exact ihl (.err e) htail (by intro h; cases h) (by intro i b c h; cases h)
    | fuelOut => exact absurd rfl hne
    | ok a b stA =>
      have hgA : cacheGood env.fs stA := hok a b stA rfl
      have hrank : rank (resolveImportPath env.troot imp.2 p) < fuel :=
        hl imp.1 imp.2 (List.mem_cons_self _ _)
      cases hfs0 : env.fs (resolveImportPath env.troot imp.2 p) with
      | none =>
        have hstep : importStep env r p (.ok a b stA) imp =
            .err (str "Component not found: " ++ imp.2) := by
          simp only [importStep, hfs0]
        rw [hstep]
        exact ihl _ htail (by intro h; cases h) (by intro i b' c h; cases h)
      | some s0 =>
        obtain ⟨hnpm0, hrank0⟩ := Hfs _ _ hfs0
        obtain ⟨st1, hload, hg1⟩ :=
          loadComponent_of_cacheGood env.fs stA
            (resolveImportPath env.troot imp.2 p) s0 hgA hfs0
        obtain ⟨hrne, hrok⟩ := hr st1 s0
          (resolveImportPath env.troot imp.2 p) hg1 hnpm0 hrank0 hrank
        cases hrec : r st1 s0 (resolveImportPath env.troot imp.2 p) with
        | fuelOut => exact absurd hrec hrne
        | err e =>
          have hstep : importStep env r p (.ok a b stA) imp = .err e := by
            simp only [importStep, hfs0, hload, hrec]
          rw [hstep]
          exact ihl _ htail (by intro h; cases h) (by intro i b' c h; cases h)
        | ok ns ni np st2 =>
          have hg2 : cacheGood env.fs st2 := hrok ns ni np st2 hrec
          have hstep : importStep env r p (.ok a b stA) imp =
              .ok (dupdate (dinsert a imp.1 ns) ni) (dupdate b np)
                (trackDependency st2 p
                  (resolveImportPath env.troot imp.2 p)) := by
            simp only [importStep, hfs0, hload, hrec]
          rw [hstep]
          apply ihl _ htail (by intro h; cases h)
          intro i b' stB h
          obtain ⟨_, _, h3⟩ := PRes.ok.inj h
          rw [← h3]
          intro k v hk
          rw [trackDependency_componentCache] at hk
          exact hg2 k v hk

/-- Termination: when the reachable import structure admits a strictly
decreasing depth rank (equivalently, it is acyclic) and all sources are
free of external imports, `resolve_imports` completes within any depth
bound exceeding the root's rank — it terminates (normally or with a raised
error), never by exhausting the bound. -/
theorem resolveImports_rank_terminates (env : ResolveEnv)
    (rank : Str → Nat)
    (Hfs : ∀ q s, env.fs q = some s → extractNpmImports s = [] ∧
      ∀ nm ip, (nm, ip) ∈ svelteImportsOf s →
        rank (resolveImportPath env.troot ip q) < rank q) :
    ∀ (fuel : Nat) (st : ResolverState) (src p : Str),
      cacheGood env.fs st →
      extractNpmImports src = [] →
      (∀ nm ip, (nm, ip) ∈ svelteImportsOf src →
        rank (resolveImportPath env.troot ip p) < rank p) →
      rank p < fuel →
      resolveImports env fuel st src p ≠ .fuelOut ∧
      (∀ o i b st2, resolveImports env fuel st src p = .ok o i b st2 →
        cacheGood env.fs st2) := by
  intro fuel
  induction fuel with
  | zero => intro st src p _ _ _ hlt; exact absurd hlt (Nat.not_lt_zero _)
  | succ fuel ih =>
    intro st src p hg hnpm hranks hlt
    rw [resolveImports_succ_npmFree env fuel st src p hnpm]
    have hchild : ∀ nm ip, (nm, ip) ∈ svelteImportsOf src →
        rank (resolveImportPath env.troot ip p) < fuel := by
      intro nm ip hm
      have h1 := hranks nm ip hm
      omega
    have hfold := importFold_ok env rank fuel Hfs
      (fun st1 s1 p1 => resolveImports env fuel st1 s1 p1)
      (fun st1 s1 p1 hg1 hnpm1 hranks1 hlt1 => ih st1 s1 p1 hg1 hnpm1 hranks1 hlt1)
      p (svelteImportsOf src) (PRes.ok [] [] st) hchild
      (by intro h; cases h)
      (by
        intro i b stA h
        obtain ⟨_, _, h3⟩ := PRes.ok.inj h
        rw [← h3]
        exact hg)
    cases hf : (svelteImportsOf src).foldl
        (importStep env
          (fun st1 s1 p1 => resolveImports env fuel st1 s1 p1) p)
        (PRes.ok [] [] st) with
    | fuelOut => exact absurd hf hfold.1
    | err e =>
      refine ⟨(by intro h; cases h), ?_⟩
      intro o i b st2 h
      cases h
    | ok ic bp st2 =>
      refine ⟨(by intro h; cases h), ?_⟩
      intro o i b st2' h
      obtain ⟨_, _, _, h4⟩ := RRes.ok.inj h
      rw [← h4]
      exact hfold.2 ic bp st2 hf

/-- C9 counterexample: a component whose import graph contains a cycle —
it imports itself (second conjunct group) — yet `resolve_imports` halts:
its first import names a missing file, so the call raises the
component-not-found error before ever entering the cycle, already within
depth bound 5 — refuting the claim that every cyclic import graph makes
every recursion-depth bound be exceeded. -/
theorem resolveImports_cycle_not_always_divergent :
    ((str "C", str "./C.svelte") ∈ svelteImportsOf cycMissingSrc ∧
     resolveImportPath (str "app") (str "./C.svelte") (str "app/C.svelte") =
       str "app/C.svelte") ∧
    resolveImports cycMissingEnv 5 emptyResolverState cycMissingSrc
      (str "app/C.svelte") =
      .err (str "Component not found: ./missing.svelte") := by
  decide

/-- C9 (amended): `resolve_imports` has no cycle guard.  (1) Whenever the
resolution actually reaches a cycle — every path in a set `S` holds a file
whose first import resolves back into `S`, and the starting source's own
first import leads into `S` — the recursion exceeds *every* depth bound.
(2) Whenever the reachable import structure admits a strictly decreasing
depth rank (equivalently, is acyclic), resolution completes within any
depth bound above the root's rank: it terminates normally or with a raised
error, never by unbounded recursion. -/
theorem resolveImports_no_cycle_guard :
    (∀ (env : ResolveEnv) (S : Str → Prop),
      (∀ q, S q → ∃ s, env.fs q = some s ∧
        extractNpmImports s = [] ∧
        ∃ nm ip rest, svelteImportsOf s = (nm, ip) :: rest ∧
          S (resolveImportPath env.troot ip q)) →
      ∀ (fuel : Nat) (st : ResolverState) (src p : Str),
        cacheGood env.fs st →
        extractNpmImports src = [] →
        (∃ nm ip rest, svelteImportsOf src = (nm, ip) :: rest ∧
          S (resolveImportPath env.troot ip p)) →
        resolveImports env fuel st src p = .fuelOut) ∧
    (∀ (env : ResolveEnv) (rank : Str → Nat),
      (∀ q s, env.fs q = some s → extractNpmImports s = [] ∧
        ∀ nm ip, (nm, ip) ∈ svelteImportsOf s →
          rank (resolveImportPath env.troot ip q) < rank q) →
      ∀ (fuel : Nat) (st : ResolverState) (src p : Str),
        cacheGood env.fs st →
        extractNpmImports src = [] →
        (∀ nm ip, (nm, ip) ∈ svelteImportsOf src →
          rank (resolveImportPath env.troot ip p) < rank p) →
        rank p < fuel →
        resolveImports env fuel st src p ≠ .fuelOut ∧
        (∀ o i b st2, resolveImports env fuel st src p = .ok o i b st2 →
          cacheGood env.fs st2)) :=
  ⟨resolveImports_trap_diverges, resolveImports_rank_terminates⟩

/-- Witness for C9's amended theorem: the self-importing component
exhausts the concrete depth bound 7, and the acyclic one-import component
completes within depth bound 2. -/
theorem resolveImports_no_cycle_guard_witness :
    resolveImports cycEnv 7 emptyResolverState cycSelfSrc
      (str "app/C.svelte") = .fuelOut ∧
    resolveImports acyEnv 2 emptyResolverState acySrc
      (str "app/A.svelte") ≠ .fuelOut := by
  constructor
  · apply resolveImports_no_cycle_guard.1 cycEnv
      (fun q => q = str "app/C.svelte")
    · intro q hq
      subst hq
      exact ⟨cycSelfSrc, by decide, by decide,
        str "C", str "./C.svelte", [], by decide, by decide⟩
    · intro k v hk
      exact Option.noConfusion hk
    · decide
    · exact ⟨str "C", str "./C.svelte", [], by decide, by decide⟩
  · have hfs : ∀ q s, acyEnv.fs q = some s →
        extractNpmImports s = [] ∧
        ∀ nm ip, (nm, ip) ∈ svelteImportsOf s →
          acyRank (resolveImportPath acyEnv.troot ip q) < acyRank q := by
      intro q s h
      have h' : (if q = str "app/B.svelte"
          then some (str "<h2>B</h2>") else none) = some s := h
      split at h'
      · have hs : s = str "<h2>B</h2>" := (Option.some.inj h').symm
        subst hs
        refine ⟨by decide, ?_⟩
        have hse : svelteImportsOf (str "<h2>B</h2>") = [] := by decide
        intro nm ip hm
        rw [hse] at hm
        cases hm
      · cases h'
    have hsrc : ∀ nm ip, (nm, ip) ∈ svelteImportsOf acySrc →
        acyRank (resolveImportPath acyEnv.troot ip (str "app/A.svelte")) <
          acyRank (str "app/A.svelte") := by
      have hse : svelteImportsOf acySrc = [(str "B", str "./B.svelte")] := by
        decide
      intro nm ip hm
      rw [hse] at hm
      rcases List.mem_singleton.mp hm with h
      obtain ⟨h1, h2⟩ := Prod.mk.injEq .. |>.mp h
      subst h2
      decide
    exact (resolveImports_no_cycle_guard.2 acyEnv acyRank hfs 2
      emptyResolverState acySrc (str "app/A.svelte")
      (fun k v hk => Option.noConfusion hk) (by decide) hsrc
      (by decide)).1
